import Mathlib

/-!
# Verification of the superstack Evaluation & Prioritization Engine

Shallow embedding of the decision logic of the repository's evaluator and
feedback components:

* `scripts/context/evaluator.py`  — `ContextEvaluator` (recommendation
  classification, key-term extraction);
* `scripts/context/context_evaluator.py` — the duplicated `ContextEvaluator`
  (test-case generation, score aggregation in `run_evaluation`,
  recommendation thresholds in `evaluate_module`);
* `feedback_system.py` — SQLite-backed `ContextFeedback`
  (`mark_optimization_applied`, `batch_add_feedback`);
* `scripts/context/context_feedback.py` — `ContextFeedback`
  (`add_feedback`, `calculate_module_effectiveness`,
  `identify_modules_for_improvement`);
* `scripts/context/feedback.py` — `ContextFeedback` (`record_feedback`).

Numbers that the Python source handles as floats are modelled as rationals
(`ℚ`); SQLite tables are modelled as lists of records, and each operation's
interaction with the database is explicit state passing.  Failure of an
external effect (an SQL insert) is modelled by an explicit outcome parameter
or by the NOT NULL constraints the schema itself declares.
-/

namespace Superstack

/-! ## Recommendation classification

`scripts/context/evaluator.py`, `ContextEvaluator.evaluate_module`,
lines 459-470:

```python
results["recommendation"] = "neutral"
if results["improvement"] > 10:
    results["recommendation"] = "apply"
elif results["improvement"] < -5:
    results["recommendation"] = "reject"
```
-/

/-- Recommendation classification of `evaluator.py` `evaluate_module`
(lines 459-470): the result dict's `recommendation` starts as `"neutral"`
and is overwritten to `"apply"` when `improvement > 10`, to `"reject"`
when `improvement < -5`. -/
def classify_recommendation (improvement : ℚ) : String :=
  if improvement > 10 then "apply"
  else if improvement < -5 then "reject"
  else "neutral"

/-- Recommendation classification of `context_evaluator.py`
`evaluate_module` (lines 352-360):

```python
if improvement > 5:
    evaluation["recommendation"] = "apply_optimization"
elif improvement > 0:
    evaluation["recommendation"] = "consider_optimization"
else:
    evaluation["recommendation"] = "keep_original"
``` -/
def ctx_classify_recommendation (improvement : ℚ) : String :=
  if improvement > 5 then "apply_optimization"
  else if improvement > 0 then "consider_optimization"
  else "keep_original"

/-! ## Score aggregation (`context_evaluator.py`, `run_evaluation`)

`run_evaluation` (lines 215-304) shells out to promptfoo and parses a JSON
result file; the I/O layer is not modelled.  What is modelled is the scoring
logic (lines 265-300) applied to the parsed results: a list of test results,
each carrying a list of prompt results; a prompt result has the prompt name
(`"Original"` or `"Optimized"`, from the two-prompt config built by
`create_evaluation_config`) and the list of per-assertion pass flags.  A
judge failure for a probe leaves that prompt result with an empty assertion
list (zero passed out of zero evaluated). -/

/-- One entry of a test result's `promptResults` list: the prompt name and
the `passed` flag of each assertion in its `assertion` list. -/
structure PromptResult where
  name : String
  asserts : List Bool
deriving Repr, DecidableEq

/-- One entry of the parsed `results` list. -/
abbrev TestResult := List PromptResult

/-- Per-prompt contribution of one test case (lines 277-283):
`score / total if total > 0 else 0`, with `score` the number of passed
assertions and `total` the number of assertions. -/
def assertScore (asserts : List Bool) : ℚ :=
  let total : ℚ := asserts.length
  let score : ℚ := (asserts.countP id : ℕ)
  if total > 0 then score / total else 0

/-- Sum, over one test result, of the contributions of its prompt results
whose name matches `nm` (the `for prompt_result in ...` loop body). -/
def promptSum (nm : String) (tr : TestResult) : ℚ :=
  (tr.filter (fun pr => pr.name = nm)).foldr (fun pr acc => assertScore pr.asserts + acc) 0

/-- Python `round(x, 2)`: the scores in the returned dict are rounded to two
decimal places.  Modelled as rational rounding of `100 * x` to an integer;
the Python float tie-breaking (round half to even on binary floats) is not
reproduced exactly, and no property proved below depends on the tie rule. -/
def round2 (x : ℚ) : ℚ := (round (x * 100) : ℤ) / 100

/-- The well-formed result record of a successful `run_evaluation`. -/
structure EvalScores where
  original_score : ℚ
  optimized_score : ℚ
  improvement : ℚ
  improvement_percent : ℚ
  total_tests : ℕ
deriving Repr, DecidableEq

/-- `run_evaluation` outcome: the dict is either
`{"success": True, ...scores...}` or `{"success": False, "error": ...}`. -/
inductive EvalOutcome where
  | failure (error : String)
  | success (scores : EvalScores)
deriving Repr, DecidableEq

/-- The `improvement_percent` computation of `run_evaluation` (line 291):
`(improvement / original_score * 100) if original_score > 0 else 0`. -/
def improvementPercent (original_score improvement : ℚ) : ℚ :=
  if original_score > 0 then improvement / original_score * 100 else 0

/-- Scoring logic of `context_evaluator.py` `run_evaluation`
(lines 265-300), applied to the parsed promptfoo results:

```python
total_tests = len(results.get("results", []))
if total_tests == 0:
    return {"success": False, "error": "No test results found"}
original_score = 0
optimized_score = 0
for result in results:
    for prompt_result in result["promptResults"]:
        score = sum(1 for a in prompt_result["assertion"] if a["passed"])
        total = len(prompt_result["assertion"])
        if name == "Original":   original_score += score / total if total > 0 else 0
        elif name == "Optimized": optimized_score += score / total if total > 0 else 0
original_score = original_score / total_tests * 100 if total_tests > 0 else 0
optimized_score = optimized_score / total_tests * 100 if total_tests > 0 else 0
improvement = optimized_score - original_score
improvement_percent = (improvement / original_score * 100) if original_score > 0 else 0
return {"success": True, "original_score": round(original_score, 2), ...}
``` -/
def run_evaluation (results : List TestResult) : EvalOutcome :=
  let total_tests : ℕ := results.length
  if total_tests = 0 then .failure "No test results found"
  else
    let origSum := results.foldr (fun tr acc => promptSum "Original" tr + acc) 0
    let optSum := results.foldr (fun tr acc => promptSum "Optimized" tr + acc) 0
    let original_score : ℚ := origSum / total_tests * 100
    let optimized_score : ℚ := optSum / total_tests * 100
    let improvement := optimized_score - original_score
    let improvement_percent := improvementPercent original_score improvement
    .success {
      original_score := round2 original_score
      optimized_score := round2 optimized_score
      improvement := round2 improvement
      improvement_percent := round2 improvement_percent
      total_tests := total_tests }

/-- The recommendation step of `context_evaluator.py` `evaluate_module`
(lines 352-360): on success, classify the (rounded) `improvement` of the
evaluation result; a failed evaluation gets no recommendation. -/
def evaluate_recommendation (o : EvalOutcome) : Option String :=
  match o with
  | .failure _ => none
  | .success s => some (ctx_classify_recommendation s.improvement)

/-! ## Outcome store (`feedback_system.py`)

`ContextFeedback` in `feedback_system.py` stores rows of the
`optimization_results` and `module_feedback` SQLite tables.  Tables are
modelled as lists of records in insertion order; `AUTOINCREMENT` row ids of
an append-only table are modelled as `length + 1`; `DATETIME` timestamps as
integers (larger = later). -/

/-- A row of the `optimization_results` table (`feedback_system.py`
lines 61-72); the token-count and improvement columns play no role in the
operations verified here and are carried unchanged. -/
structure OptRow where
  module_name : String
  target_model : String
  original_tokens : ℤ
  optimized_tokens : ℤ
  improvement_percent : ℚ
  time : ℤ
  is_applied : Bool
deriving Repr, DecidableEq

/-- The row selected by `ORDER BY timestamp DESC LIMIT 1`: an element of
maximal `t`-value.  SQLite leaves the order of equal timestamps
unspecified; this model keeps the earliest-listed row among ties, and no
property proved below depends on the tie rule. -/
def latestBy {α : Type} (t : α → ℤ) : List α → Option α
  | [] => none
  | x :: xs =>
    match latestBy t xs with
    | none => some x
    | some b => if t b > t x then some b else some x

/-- The `WHERE module_name = ? AND target_model = ?` filter of
`mark_optimization_applied`. -/
def optMatches (m tm : String) (r : OptRow) : Bool :=
  r.module_name = m && r.target_model = tm

/-- Index (and row) of the most recent `optimization_results` row matching
`(m, tm)`: the row the `UPDATE ... ORDER BY timestamp DESC LIMIT 1` of
`mark_optimization_applied` touches.  SQLite leaves the choice among equal
timestamps unspecified; this model keeps the earliest-inserted row among
ties, and no property proved below depends on the tie rule. -/
def latestMatch (m tm : String) : List OptRow → Option (ℕ × OptRow)
  | [] => none
  | r :: rs =>
    let rest := (latestMatch m tm rs).map (fun p => (p.1 + 1, p.2))
    if optMatches m tm r then
      match rest with
      | none => some (0, r)
      | some (j, b) => if b.time > r.time then some (j, b) else some (0, r)
    else rest

/-- `feedback_system.py` `ContextFeedback.mark_optimization_applied`
(lines 208-242):

```python
cursor.execute(
    UPDATE optimization_results SET is_applied = 1
    WHERE module_name = ? AND target_model = ?
    ORDER BY timestamp DESC LIMIT 1, (module_name, target_model))
success = cursor.rowcount > 0
return success
```

The `SET is_applied = 1` is unconditional: the `WHERE` clause does not
require `is_applied = 0`, so an already-applied most-recent row is updated
again and still counts toward `rowcount`.  Returns the flag and the updated
table. -/
def mark_optimization_applied (rows : List OptRow) (m tm : String) :
    Bool × List OptRow :=
  match latestMatch m tm rows with
  | none => (false, rows)
  | some (i, r) => (true, rows.set i { r with is_applied := true })

/-- Input dict of one `batch_add_feedback` entry: `feedback.get(k)` yields
`None` for a missing key, hence every field is optional. -/
structure FeedbackEntry where
  module_name : Option String
  model_used : Option String
  feedback_type : Option String
  feedback_detail : Option String
  session_id : Option String
deriving Repr, DecidableEq

/-- A row of the `module_feedback` table (`feedback_system.py` lines 48-58):
`module_name`, `model_used` and `feedback_type` are `NOT NULL`. -/
structure FeedbackRow where
  id : ℕ
  module_name : String
  model_used : String
  feedback_type : String
  feedback_detail : Option String
  session_id : Option String
deriving Repr, DecidableEq

/-- An `INSERT` into `module_feedback` succeeds exactly when the entry
provides the three `NOT NULL` columns (a `None` there raises
`sqlite3.IntegrityError`, the failure mode the schema itself defines). -/
def entryValid (e : FeedbackEntry) : Bool :=
  e.module_name.isSome && e.model_used.isSome && e.feedback_type.isSome

/-- The insert loop of `batch_add_feedback`: execute the inserts in input
order, collecting `cursor.lastrowid` after each; stop at the first failing
insert. -/
def batchInsertGo (st : List FeedbackRow) (ids : List ℕ) :
    List FeedbackEntry → Except String (List ℕ × List FeedbackRow)
  | [] => .ok (ids.reverse, st)
  | e :: es =>
    match e.module_name, e.model_used, e.feedback_type with
    | some mn, some mu, some ft =>
      let row : FeedbackRow :=
        { id := st.length + 1, module_name := mn, model_used := mu,
          feedback_type := ft, feedback_detail := e.feedback_detail,
          session_id := e.session_id }
      batchInsertGo (st ++ [row]) (row.id :: ids) es
    | _, _, _ => .error "NOT NULL constraint failed: module_feedback"

/-- `feedback_system.py` `ContextFeedback.batch_add_feedback`
(lines 117-160):

```python
try:
    cursor.execute("BEGIN TRANSACTION")
    for feedback in feedback_data:
        cursor.execute(INSERT ..., (feedback.get("module_name"), ...))
        feedback_ids.append(cursor.lastrowid)
    cursor.execute("COMMIT")
except Exception as e:
    cursor.execute("ROLLBACK")
    raise e
return feedback_ids
```

The first component is the raised error or the returned id list; the second
is the table after the call — on `ROLLBACK` the table reverts to its
pre-call state. -/
def batch_add_feedback (st : List FeedbackRow) (entries : List FeedbackEntry) :
    Except String (List ℕ) × List FeedbackRow :=
  match batchInsertGo st [] entries with
  | .ok (ids, st') => (.ok ids, st')
  | .error e => (.error e, st)

/-! ## Feedback store (`scripts/context/context_feedback.py`)

The duplicated `ContextFeedback` keeps a `feedback` table and an
`optimization_results` table (schema at lines 48-74).  ISO-8601 timestamps
are modelled at day granularity as integers, so that
`(datetime.now() - last_timestamp).days` becomes `now - time`; `uuid4` ids
and `datetime.now()` are environment inputs and appear as explicit
parameters. -/

/-- A row of the `feedback` table of `context_feedback.py` (lines 48-58). -/
structure CtxFeedbackRow where
  id : String
  module_name : String
  target_model : String
  score : ℤ
  comment : Option String
  source : String
  time : ℤ
deriving Repr, DecidableEq

/-- A row of the `optimization_results` table of `context_feedback.py`
(lines 61-74); the score columns are nullable. -/
structure CtxOptRow where
  id : String
  module_name : String
  target_model : String
  original_score : Option ℚ
  optimized_score : Option ℚ
  improvement : Option ℚ
  time : ℤ
  status : String
  applied : Bool
  error : Option String
deriving Repr, DecidableEq

/-- The whole `context_optimization.db` database. -/
structure CtxDb where
  feedback : List CtxFeedbackRow
  opt_results : List CtxOptRow
deriving Repr, DecidableEq

/-- Optional-filter match: `target_model = ?` is appended to the query only
when a target model is requested. -/
def tmMatches (tm : Option String) (rowTm : String) : Bool :=
  match tm with
  | none => true
  | some t => rowTm = t

/-- Result dict of `add_feedback`: either
`{"success": True, "id": ..., ...}` or `{"success": False, "error": ...}`. -/
structure AddFeedbackResult where
  success : Bool
  id : Option String
  error : Option String
deriving Repr, DecidableEq

/-- `context_feedback.py` `ContextFeedback.add_feedback` (lines 83-141):

```python
if not module_name or not target_model:
    return {"success": False, "error": "Module name and target model are required"}
if not isinstance(score, int) or score < 1 or score > 10:
    return {"success": False, "error": "Score must be an integer between 1 and 10"}
cursor.execute(INSERT INTO feedback ..., (feedback_id, module_name, ...))
conn.commit()
return {"success": True, "id": feedback_id, ...}
# except Exception as e: return {"success": False, "error": str(e)}
```

`ioError` is the outcome of the storage layer: `some e` means the insert or
commit raises an exception with message `e` (caught by the `except` branch),
`none` means it succeeds.  Returns the result dict and the table after the
call. -/
def add_feedback (ioError : Option String) (fid : String) (now : ℤ)
    (st : List CtxFeedbackRow) (module_name target_model : String) (score : ℤ)
    (comment : Option String) (source : String) :
    AddFeedbackResult × List CtxFeedbackRow :=
  if module_name = "" ∨ target_model = "" then
    ({ success := false, id := none,
       error := some "Module name and target model are required" }, st)
  else if score < 1 ∨ score > 10 then
    ({ success := false, id := none,
       error := some "Score must be an integer between 1 and 10" }, st)
  else
    match ioError with
    | some e => ({ success := false, id := none, error := some e }, st)
    | none =>
      let row : CtxFeedbackRow :=
        { id := fid, module_name := module_name, target_model := target_model,
          score := score, comment := comment, source := source, time := now }
      ({ success := true, id := some fid, error := none }, st ++ [row])

/-- Result of `calculate_module_effectiveness` (success case); the Python
additionally rounds `avg_score` and `effectiveness` to two decimals for
display (a float operation on the returned copy only) — the flag
`needs_optimization` is computed from the unrounded values modelled here. -/
structure EffectivenessResult where
  feedback_count : ℕ
  avg_score : Option ℚ
  effectiveness : Option ℚ
  needs_optimization : Bool
deriving Repr, DecidableEq

/-- `context_feedback.py` `ContextFeedback.calculate_module_effectiveness`
(lines 338-432):

```python
df = SELECT * FROM feedback WHERE module_name = ? [AND target_model = ?]
if df.empty: return {..., "feedback_count": 0, "avg_score": None,
                     "effectiveness": None, "needs_optimization": False}
feedback_count = len(df)
avg_score = df[score].mean()
effectiveness = (avg_score - 1) / 9 * 100
opt_df = SELECT * FROM optimization_results WHERE module_name = ?
         [AND target_model = ?] ORDER BY timestamp DESC LIMIT 1
if opt_df.empty:
    needs_optimization = effectiveness < 70 and feedback_count >= 3
else:
    needs_optimization = ((datetime.now() - last_timestamp).days > 30
        and effectiveness < 70 and feedback_count >= 3)
``` -/
def calculate_module_effectiveness (db : CtxDb) (now : ℤ)
    (module_name : String) (target_model : Option String) :
    EffectivenessResult :=
  let rows := db.feedback.filter
    (fun r => r.module_name = module_name && tmMatches target_model r.target_model)
  if rows.isEmpty then
    { feedback_count := 0, avg_score := none, effectiveness := none,
      needs_optimization := false }
  else
    let feedback_count := rows.length
    let avg_score : ℚ := ((rows.map (fun r => (r.score : ℚ))).sum) / feedback_count
    let effectiveness : ℚ := (avg_score - 1) / 9 * 100
    let latest := latestBy (fun r => r.time) (db.opt_results.filter
      (fun r => r.module_name = module_name && tmMatches target_model r.target_model))
    let needs_optimization :=
      match latest with
      | none => decide (effectiveness < 70 ∧ 3 ≤ feedback_count)
      | some r => decide (30 < now - r.time ∧ effectiveness < 70 ∧ 3 ≤ feedback_count)
    { feedback_count := feedback_count, avg_score := some avg_score,
      effectiveness := some effectiveness,
      needs_optimization := needs_optimization }

/-- One entry of the `modules_to_improve` list built by
`identify_modules_for_improvement`; `avg_score` and `effectiveness` are
stored rounded to two decimals, as in the Python dict. -/
structure ImproveEntry where
  module_name : String
  feedback_count : ℕ
  avg_score : ℚ
  effectiveness : ℚ
  last_opt_time : Option ℤ
deriving Repr, DecidableEq

/-- First occurrences, in order, of the values of a list — the distinct
`module_name` keys produced by `GROUP BY module_name` over the filtered
`feedback` table (SQLite emits each group once; the final result is sorted
afterwards, so the group order itself is immaterial). -/
def distinctFirst : List String → List String
  | [] => []
  | x :: xs => x :: (distinctFirst xs).filter (fun y => y ≠ x)

/-- The per-module body of the `for row in low_effectiveness` loop of
`identify_modules_for_improvement` (lines 478-524), combined with the
effectiveness computation of its group row: the module's entry when it is
below the effectiveness threshold and not in the 30-day cooldown, `none`
otherwise. -/
def moduleImproveEntry (db : CtxDb) (now : ℤ) (max_effectiveness : ℚ)
    (target_model : Option String) (frows : List CtxFeedbackRow) (m : String) :
    Option ImproveEntry :=
  let rows := frows.filter (fun r => r.module_name = m)
  let feedback_count := rows.length
  let avg_score : ℚ := ((rows.map (fun r => (r.score : ℚ))).sum) / feedback_count
  let effectiveness : ℚ := (avg_score - 1) / 9 * 100
  if effectiveness ≤ max_effectiveness then
    let latest := latestBy (fun r => r.time) (db.opt_results.filter
      (fun r => r.module_name = m && tmMatches target_model r.target_model))
    match latest with
    | none =>
      some { module_name := m, feedback_count := feedback_count,
             avg_score := round2 avg_score, effectiveness := round2 effectiveness,
             last_opt_time := none }
    | some r =>
      if 30 < now - r.time then
        some { module_name := m, feedback_count := feedback_count,
               avg_score := round2 avg_score, effectiveness := round2 effectiveness,
               last_opt_time := some r.time }
      else none
  else none

/-- `context_feedback.py` `ContextFeedback.identify_modules_for_improvement`
(lines 434-539), returning the `modules_to_improve` list:

```python
df = SELECT module_name, COUNT(*) as feedback_count, AVG(score) as avg_score
     FROM feedback [WHERE target_model = ?]
     GROUP BY module_name HAVING COUNT(*) >= min_feedback
df[effectiveness] = (df[avg_score] - 1) / 9 * 100
low_effectiveness = df[df[effectiveness] <= max_effectiveness]
for row in low_effectiveness:
    opt_df = SELECT * FROM optimization_results WHERE module_name = ?
             [AND target_model = ?] ORDER BY timestamp DESC LIMIT 1
    if opt_df.empty: append(row)
    elif (datetime.now() - last_timestamp).days > 30: append(row)
modules_to_improve.sort(key=lambda x: x["effectiveness"])
```

The 30-day window is hard-coded; there is no cooldown parameter.  SQLite
emits the `GROUP BY` groups in an unspecified order, modelled as order of
first appearance; the final sort (stable, ascending by the rounded
effectiveness, like Python `list.sort(key=...)`) determines the output
order. -/
def identify_modules_for_improvement (db : CtxDb) (now : ℤ)
    (min_feedback : ℕ) (max_effectiveness : ℚ) (target_model : Option String) :
    List ImproveEntry :=
  let frows := db.feedback.filter (fun r => tmMatches target_model r.target_model)
  let names := (distinctFirst (frows.map (fun r => r.module_name))).filter
    (fun m => min_feedback ≤ (frows.filter (fun r => r.module_name = m)).length)
  let entries := names.filterMap
    (moduleImproveEntry db now max_effectiveness target_model frows)
  entries.mergeSort (fun a b => a.effectiveness ≤ b.effectiveness)

/-! ## Feedback store (`scripts/context/feedback.py`)

The third `ContextFeedback` duplicate; its `module_feedback` table has an
`AUTOINCREMENT` integer id (lines 56-67). -/

/-- A row of the `module_feedback` table of `scripts/context/feedback.py`. -/
structure FbRow where
  id : ℕ
  module_name : String
  time : ℤ
  user_id : Option String
  feedback_type : String
  feedback_text : Option String
  effectiveness : Option ℤ
  target_model : Option String
deriving Repr, DecidableEq

/-- Result dict of `record_feedback`: `{"success": True, "feedback_id": ...}`
or `{"success": False, "error": ...}`. -/
structure RecordFeedbackResult where
  success : Bool
  feedback_id : Option ℕ
  error : Option String
deriving Repr, DecidableEq

/-- `scripts/context/feedback.py` `ContextFeedback.record_feedback`
(lines 90-140):

```python
try:
    cursor.execute(INSERT INTO module_feedback ..., (module_name, ...))
    conn.commit()
    feedback_id = cursor.lastrowid
    return {"success": True, "feedback_id": feedback_id, ...}
except sqlite3.Error as e:
    return {"success": False, "error": f"Error recording feedback: {str(e)}"}
```

`ioError` is the storage outcome as in `add_feedback`.  The columns of the
table carry no `NOT NULL` constraint beyond `module_name`, `timestamp` and
`feedback_type`, all always supplied, so the only failure source is the
storage layer itself. -/
def record_feedback (ioError : Option String) (now : ℤ) (st : List FbRow)
    (module_name feedback_type : String) (effectiveness : Option ℤ)
    (feedback_text user_id target_model : Option String) :
    RecordFeedbackResult × List FbRow :=
  match ioError with
  | some e =>
    ({ success := false, feedback_id := none,
       error := some ("Error recording feedback: " ++ e) }, st)
  | none =>
    let row : FbRow :=
      { id := st.length + 1, module_name := module_name, time := now,
        user_id := user_id, feedback_type := feedback_type,
        feedback_text := feedback_text, effectiveness := effectiveness,
        target_model := target_model }
    ({ success := true, feedback_id := some row.id, error := none },
     st ++ [row])

/-! ## Key-term extraction (`scripts/context/evaluator.py`)

`ContextEvaluator._extract_key_terms` (lines 266-299) runs
`re.findall(r'\b([A-Z][a-zA-Z0-9]*(?:\s+[A-Z][a-zA-Z0-9]*)*)\b', content)`
and then keeps, in match order, the terms longer than three characters that
were not seen before and whose lower-casing is not a stop word, stopping at
`max_terms`.  The regex scan is implemented below directly on the character
list: a match starts at a word boundary on an upper-case letter, greedily
takes `[a-zA-Z0-9]*`, then repeats `\s+[A-Z][a-zA-Z0-9]*` as long as the
segment ends at a word boundary (Python `\w` is `[A-Za-z0-9_]`, so after a
maximal alphanumeric run only an underscore can break the boundary, which
makes the regex drop that repetition — or the whole match for the first
word). -/

/-- Python word character `\w` (ASCII range; the module contents handled by
the tool are ASCII markdown). -/
def isWordChar (c : Char) : Bool := c.isAlphanum || c = '_'

/-- The regex character class `[a-zA-Z0-9]`. -/
def isAlnumAscii (c : Char) : Bool := c.isAlpha || c.isDigit

/-- Whether the next character breaks the trailing `\b` of a word segment:
after a maximal `[a-zA-Z0-9]*` run the boundary fails exactly when the next
character is still a word character. -/
def headIsWordChar : List Char → Bool
  | [] => false
  | c :: _ => isWordChar c

/-- Greedy `(?:\s+[A-Z][a-zA-Z0-9]*)*` with a trailing `\b`: collect
whitespace-joined further capitalized words while each keeps the final
boundary satisfiable; on a boundary failure the regex backtracks to before
that repetition (the previous segment ends before whitespace, where the
boundary holds).  Returns the matched extension and the rest of the
input. -/
def termExtend (fuel : ℕ) (cs : List Char) : List Char × List Char :=
  match fuel with
  | 0 => ([], cs)
  | fuel + 1 =>
    let ws := cs.takeWhile Char.isWhitespace
    let r := cs.dropWhile Char.isWhitespace
    match r with
    | [] => ([], cs)
    | c :: _ =>
      if ws ≠ [] && c.isUpper then
        let w := r.takeWhile isAlnumAscii
        let r2 := r.dropWhile isAlnumAscii
        if headIsWordChar r2 then ([], cs)
        else
          let (ext, rest) := termExtend fuel r2
          (ws ++ w ++ ext, rest)
      else ([], cs)

/-- Attempt a match of the term regex at the current position (the head of
`cs` is known to be an upper-case letter at a word boundary).  Returns the
captured text and the remaining input, or `none` when the first word cannot
end at a word boundary (an underscore follows, and no shorter split of an
alphanumeric run creates a boundary). -/
def tryTermMatch (cs : List Char) : Option (String × List Char) :=
  let w1 := cs.takeWhile isAlnumAscii
  let r1 := cs.dropWhile isAlnumAscii
  if headIsWordChar r1 then none
  else
    let (ext, rest) := termExtend r1.length r1
    some (String.mk (w1 ++ ext), rest)

/-- Left-to-right non-overlapping scan of `re.findall` for the term regex:
`prevWord` records whether the previous character is a word character (the
`\b` look-behind); scanning resumes after each match. -/
def termScanGo (fuel : ℕ) (prevWord : Bool) (cs : List Char) : List String :=
  match fuel, cs with
  | 0, _ => []
  | _, [] => []
  | fuel + 1, c :: rest =>
    if !prevWord && c.isUpper then
      match tryTermMatch (c :: rest) with
      | some (t, rest') => t :: termScanGo fuel true rest'
      | none => termScanGo fuel (isWordChar c) rest
    else termScanGo fuel (isWordChar c) rest

/-- All matches of the capitalized-term regex of `_extract_key_terms`, in
order of first appearance in `content`. -/
def termMatches (content : String) : List String :=
  termScanGo (content.length + 1) false content.data

/-- The stop-word list of `_extract_key_terms` (line 288). -/
def stopTerms : List String := ["this", "that", "the", "and", "for"]

/-- Python `str.lower()` on the ASCII content the tool handles:
per-character lowercasing. -/
def pyLower (s : String) : String := String.mk (s.data.map Char.toLower)

/-- The filtering loop of `_extract_key_terms` (lines 284-293): the `seen`
set holds exactly the accepted terms, so membership in the accumulator
models it; the `break` fires after an append reaches `max_terms`. -/
def keyTermsLoop (max_terms : ℕ) : List String → List String → List String
  | [], acc => acc.reverse
  | t :: ts, acc =>
    if t.length > 3 && !acc.contains t && !stopTerms.contains (pyLower t) then
      if max_terms ≤ acc.length + 1 then (t :: acc).reverse
      else keyTermsLoop max_terms ts (t :: acc)
    else keyTermsLoop max_terms ts acc

/-- `scripts/context/evaluator.py` `ContextEvaluator._extract_key_terms`
(lines 266-299):

```python
term_pattern = re.compile(r'\b([A-Z][a-zA-Z0-9]*(?:\s+[A-Z][a-zA-Z0-9]*)*)\b')
matches = term_pattern.findall(content)
key_terms, seen = [], set()
for term in matches:
    if len(term) > 3 and term not in seen and not term.lower() in
            ['this', 'that', 'the', 'and', 'for']:
        key_terms.append(term); seen.add(term)
        if len(key_terms) >= max_terms: break
return key_terms
``` -/
def extract_key_terms (content : String) (max_terms : ℕ := 10) : List String :=
  keyTermsLoop max_terms (termMatches content) []

/-! ## Key-term extraction (`scripts/context/context_evaluator.py`)

The duplicate `_extract_key_terms` (lines 183-213) collects three kinds of
terms and deduplicates with `list(set(...))`. -/

/-- The backtick character, `chr(96)`. -/
def backtickChar : Char := Char.ofNat 96

/-- Whether `pat` begins `cs`. -/
def leadsWith : List Char → List Char → Bool
  | [], _ => true
  | _ :: _, [] => false
  | p :: ps, c :: cs => p = c && leadsWith ps cs

/-- Split `cs` at the first occurrence of `pat`: returns the part before the
occurrence and the part after it. -/
def splitPat (pat : List Char) : List Char → Option (List Char × List Char)
  | [] => if leadsWith pat [] then some ([], []) else none
  | c :: cs =>
    if leadsWith pat (c :: cs) then some ([], (c :: cs).drop pat.length)
    else
      match splitPat pat cs with
      | none => none
      | some (a, b) => some (c :: a, b)

/-- Three consecutive backticks. -/
def tripleTick : List Char := [backtickChar, backtickChar, backtickChar]

/-- `re.findall(r'```(?:(?!```).)*```', content, re.DOTALL)` (line 197):
each match runs from one triple backtick to the next, delimiters
included. -/
def codeBlockScan (fuel : ℕ) (cs : List Char) : List (List Char) :=
  match fuel with
  | 0 => []
  | fuel + 1 =>
    match splitPat tripleTick cs with
    | none => []
    | some (_, rest) =>
      match splitPat tripleTick rest with
      | none => []
      | some (inner, rest2) =>
        (tripleTick ++ inner ++ tripleTick) :: codeBlockScan fuel rest2

/-- Scanner for maximal word-character runs (fuel-based; the fuel is one
more than the remaining input, which every step consumes). -/
def wordRunsGo (fuel : ℕ) (cs : List Char) : List String :=
  match fuel, cs with
  | 0, _ => []
  | _, [] => []
  | fuel + 1, c :: cs =>
    if isWordChar c then
      String.mk (c :: cs.takeWhile isWordChar) ::
        wordRunsGo fuel (cs.dropWhile isWordChar)
    else wordRunsGo fuel cs

/-- Maximal runs of word characters in `cs`.  A match of
`r'\b([A-Za-z][A-Za-z0-9_]*)\b'` (or its `[A-Z]`-initial variant) is
exactly a maximal word-character run whose first character qualifies: word
boundaries cannot fall inside a run, and every run edge is a boundary. -/
def wordRuns (cs : List Char) : List String := wordRunsGo (cs.length + 1) cs

/-- `re.findall(r'\b([A-Za-z][A-Za-z0-9_]*)\b', block)` (line 200). -/
def identTerms (cs : List Char) : List String :=
  (wordRuns cs).filter (fun s =>
    match s.data with
    | c :: _ => c.isAlpha
    | [] => false)

/-- `re.findall(r'\b([A-Z][A-Za-z0-9_]*)\b', content)` (line 204). -/
def capTerms (cs : List Char) : List String :=
  (wordRuns cs).filter (fun s =>
    match s.data with
    | c :: _ => c.isUpper
    | [] => false)

/-- `re.findall(r'`([^`]+)`', content)` (line 208): non-overlapping
backtick-delimited spans with non-empty interior. -/
def backtickTerms (fuel : ℕ) (cs : List Char) : List String :=
  match fuel, cs with
  | 0, _ => []
  | _, [] => []
  | fuel + 1, c :: rest =>
    if c = backtickChar then
      let inner := rest.takeWhile (fun d => d ≠ backtickChar)
      if inner.isEmpty then backtickTerms fuel rest
      else
        match rest.dropWhile (fun d => d ≠ backtickChar) with
        | _ :: rest2 => String.mk inner :: backtickTerms fuel rest2
        | [] => []
    else backtickTerms fuel rest

/-- Python `list(set(xs))`: set iteration order is hash-based and varies
across processes (`PYTHONHASHSEED`), so no particular order is a faithful
model.  Modelled as first-occurrence deduplication; the properties settled
against this definition depend only on set membership, which it models
exactly. -/
def pySetList (xs : List String) : List String := distinctFirst xs

/-- `scripts/context/context_evaluator.py`
`ContextEvaluator._extract_key_terms` (lines 183-213):

```python
technical_terms = []
code_blocks = re.findall(r'```(?:(?!```).)*```', content, re.DOTALL)
for block in code_blocks:
    terms = re.findall(r'\b([A-Za-z][A-Za-z0-9_]*)\b', block)
    technical_terms.extend([t for t in terms if len(t) > 3])
cap_terms = re.findall(r'\b([A-Z][A-Za-z0-9_]*)\b', content)
technical_terms.extend([t for t in cap_terms if len(t) > 3])
backtick_terms = re.findall(r'`([^`]+)`', content)
technical_terms.extend(backtick_terms)      # note: no length filter here
unique_terms = list(set(technical_terms))
return unique_terms[:10]
``` -/
def ctx_extract_key_terms (content : String) : List String :=
  let cs := content.data
  let codeTerms := ((codeBlockScan (cs.length + 1) cs).map
    (fun b => (identTerms b).filter (fun t => t.length > 3))).flatten
  let capT := (capTerms cs).filter (fun t => t.length > 3)
  let backT := backtickTerms (cs.length + 1) cs
  (pySetList (codeTerms ++ capT ++ backT)).take 10

/-! ## Test-case generation (`scripts/context/context_evaluator.py`)

`generate_test_cases` (lines 94-181) builds promptfoo test cases from the
module content. -/

/-- One entry of a test case's `assert` list. -/
inductive AssertSpec where
  | containsAny (values : List String) (description : String)
  | javascript (value : String) (description : String)
  | notContainsAny (values : List String) (description : String)
deriving Repr, DecidableEq

/-- One promptfoo test case: `{"vars": {"userPrompt": ...}, "assert": [...]}`. -/
structure TestCase where
  userPrompt : String
  asserts : List AssertSpec
deriving Repr, DecidableEq

/-- `re.findall(r'```context\n(.*?)\n```', module_content, re.DOTALL)`
(line 109): the non-greedy capture runs from each `"```context\n"` to the
first following `"\n```"`. -/
def ctxBlockScan (fuel : ℕ) (cs : List Char) : List (List Char) :=
  match fuel with
  | 0 => []
  | fuel + 1 =>
    match splitPat (tripleTick ++ "context\n".data) cs with
    | none => []
    | some (_, rest) =>
      match splitPat ([Char.ofNat 10] ++ tripleTick) rest with
      | none => []
      | some (inner, rest2) => inner :: ctxBlockScan fuel rest2

/-- Python `str.strip()`. -/
def pyStrip (s : String) : String :=
  String.mk (((s.data.dropWhile Char.isWhitespace).reverse.dropWhile
    Char.isWhitespace).reverse)

/-- The generic prompts used when no context block is found (lines 114-118). -/
def genericPrompts : List String :=
  ["What is the main purpose of this module?",
   "Give me an example of how to use this information.",
   "Explain the key concepts from this module."]

/-- Prompt construction of `generate_test_cases` (lines 111-131): with no
context block, the three generic prompts; otherwise one topic prompt per
block (among the first `num_tests`) that has more than two lines after
stripping, padded with the filler prompt up to `num_tests`. -/
def ctxPrompts (blocks : List (List Char)) (num_tests : ℕ) : List String :=
  if blocks.isEmpty then genericPrompts
  else
    let base := (blocks.take num_tests).filterMap (fun b =>
      let lines := (pyStrip (String.mk b)).splitOn "\n"
      if 2 < lines.length then
        some ("Explain " ++ lines.headD "" ++ " in detail.")
      else none)
    base ++ List.replicate (num_tests - base.length)
      "What are the key points from this context module?"

/-- The three assertions attached to every generated test case
(lines 142-158). -/
def ctxAsserts (key_terms : List String) : List AssertSpec :=
  [.containsAny (key_terms.take 5) "Response contains key technical terms",
   .javascript "outputs[0].length > 50 && outputs[0].length < 3000"
     "Response has reasonable length",
   .notContainsAny ["As an AI", "I don\x27t have", "I cannot", "I\x27m unable"]
     "Response avoids AI self-references"]

/-- `scripts/context/context_evaluator.py`
`ContextEvaluator.generate_test_cases` (lines 94-181), the body of the
`try` block.  The embedding is a total function, so the `except` branch is
unreachable here; its constant fallback value is
`ctx_fallback_test_cases` below. -/
def generate_test_cases (module_content : String) (num_tests : ℕ := 3) :
    List TestCase :=
  let blocks := ctxBlockScan (module_content.length + 1) module_content.data
  let prompts := ctxPrompts blocks num_tests
  let key_terms := ctx_extract_key_terms module_content
  (prompts.take num_tests).map (fun p =>
    { userPrompt := p, asserts := ctxAsserts key_terms })

/-- The fallback returned by the `except` branch of `generate_test_cases`
(lines 165-181): one basic test case. -/
def ctx_fallback_test_cases : List TestCase :=
  [{ userPrompt := "What is the main purpose of this module?",
     asserts := [.javascript "outputs[0].length > 50"
       "Response has reasonable length"] }]

/-! ## Helper lemmas for score aggregation -/

theorem assertScore_nonneg (l : List Bool) : 0 ≤ assertScore l := by
  simp only [assertScore]
  split_ifs with h
  · positivity
  · exact le_rfl

theorem assertScore_le_one (l : List Bool) : assertScore l ≤ 1 := by
  simp only [assertScore]
  split_ifs with h
  · rw [div_le_one h]
    exact_mod_cast List.countP_le_length id
  · exact zero_le_one

theorem foldr_assertScore_nonneg (l : List PromptResult) :
    0 ≤ l.foldr (fun pr acc => assertScore pr.asserts + acc) 0 := by
  induction l with
  | nil => simp
  | cons pr rest ih =>
    simp only [List.foldr_cons]
    have := assertScore_nonneg pr.asserts
    linarith

theorem foldr_assertScore_le_length (l : List PromptResult) :
    l.foldr (fun pr acc => assertScore pr.asserts + acc) 0 ≤ l.length := by
  induction l with
  | nil => simp
  | cons pr rest ih =>
    simp only [List.foldr_cons, List.length_cons]
    have := assertScore_le_one pr.asserts
    push_cast
    linarith

theorem promptSum_nonneg (nm : String) (tr : TestResult) :
    0 ≤ promptSum nm tr := foldr_assertScore_nonneg _

theorem promptSum_le_one (nm : String) (tr : TestResult)
    (h : (tr.filter (fun pr => pr.name = nm)).length ≤ 1) :
    promptSum nm tr ≤ 1 := by
  calc promptSum nm tr ≤ ((tr.filter (fun pr => pr.name = nm)).length : ℚ) :=
        foldr_assertScore_le_length _
    _ ≤ 1 := by exact_mod_cast h

theorem foldr_assertScore_all_empty (l : List PromptResult)
    (h : ∀ pr ∈ l, pr.asserts = []) :
    l.foldr (fun pr acc => assertScore pr.asserts + acc) 0 = 0 := by
  induction l with
  | nil => simp
  | cons pr rest ih =>
    simp only [List.foldr_cons]
    rw [h pr (by simp), ih (fun q hq => h q (by simp [hq]))]
    simp [assertScore]

theorem promptSum_empty_asserts (nm : String) (tr : TestResult)
    (h : ∀ pr ∈ tr, pr.asserts = []) : promptSum nm tr = 0 :=
  foldr_assertScore_all_empty _
    (fun pr hpr => h pr (List.mem_filter.mp hpr).1)

theorem foldr_promptSum_nonneg (nm : String) (results : List TestResult) :
    0 ≤ results.foldr (fun tr acc => promptSum nm tr + acc) 0 := by
  induction results with
  | nil => simp
  | cons tr rest ih =>
    simp only [List.foldr_cons]
    have := promptSum_nonneg nm tr
    linarith

theorem foldr_promptSum_le_length (nm : String) (results : List TestResult)
    (h : ∀ tr ∈ results, (tr.filter (fun pr => pr.name = nm)).length ≤ 1) :
    results.foldr (fun tr acc => promptSum nm tr + acc) 0 ≤ results.length := by
  induction results with
  | nil => simp
  | cons tr rest ih =>
    simp only [List.foldr_cons, List.length_cons]
    have h1 := promptSum_le_one nm tr (h tr (by simp))
    have h2 := ih (fun q hq => h q (by simp [hq]))
    push_cast
    linarith

theorem foldr_promptSum_all_empty (nm : String) (results : List TestResult)
    (h : ∀ tr ∈ results, ∀ pr ∈ tr, pr.asserts = []) :
    results.foldr (fun tr acc => promptSum nm tr + acc) 0 = 0 := by
  induction results with
  | nil => simp
  | cons tr rest ih =>
    simp only [List.foldr_cons]
    rw [promptSum_empty_asserts nm tr (h tr (by simp)),
      ih (fun q hq => h q (by simp [hq]))]
    simp

theorem round2_zero : round2 0 = 0 := by
  simp [round2]

theorem round2_bounds (x : ℚ) (h0 : 0 ≤ x) (h1 : x ≤ 100) :
    0 ≤ round2 x ∧ round2 x ≤ 100 := by
  unfold round2
  have hl : (0 : ℤ) ≤ round (x * 100) := by
    rw [round_eq]
    rw [Int.le_floor]
    push_cast
    linarith
  have hu : round (x * 100) ≤ 10000 := by
    rw [round_eq]
    have hle : x * 100 + 1 / 2 ≤ (10000 : ℚ) + 1 / 2 := by linarith
    calc (⌊x * 100 + 1 / 2⌋ : ℤ) ≤ ⌊(10000 : ℚ) + 1 / 2⌋ := Int.floor_mono hle
      _ = 10000 := by
          rw [show ((10000 : ℚ) + 1 / 2) = 1 / 2 + (10000 : ℤ) by push_cast; ring,
            Int.floor_add_int]
          norm_num
  constructor
  · positivity
  · rw [div_le_iff₀ (by norm_num)]
    have : ((round (x * 100) : ℤ) : ℚ) ≤ ((10000 : ℤ) : ℚ) := by exact_mod_cast hu
    push_cast at this
    linarith

/-! ## C2: score well-formedness -/

/-- C2 (amended).  For every sequence of judge outcomes — each test result
carrying at most one `Original` and one `Optimized` prompt result, each with
its per-assertion pass flags, where a failed judge call leaves an empty
assertion list — `run_evaluation` returns success with both scores in
[0,100]; when every judge call fails (all assertion lists empty) the run
still completes successfully with both scores 0, improvement 0 and
improvement percent 0, and `evaluate_module` then classifies it with the
code's no-improvement label `keep_original` (the spec's name `review` for
the middle class does not occur in the code). -/
theorem run_evaluation_score_bounds (results : List TestResult)
    (hne : results ≠ [])
    (hwf : ∀ tr ∈ results,
      (tr.filter (fun pr => pr.name = "Original")).length ≤ 1 ∧
      (tr.filter (fun pr => pr.name = "Optimized")).length ≤ 1) :
    ∃ s, run_evaluation results = .success s ∧
      0 ≤ s.original_score ∧ s.original_score ≤ 100 ∧
      0 ≤ s.optimized_score ∧ s.optimized_score ≤ 100 ∧
      ((∀ tr ∈ results, ∀ pr ∈ tr, pr.asserts = []) →
        s.original_score = 0 ∧ s.optimized_score = 0 ∧ s.improvement = 0 ∧
        s.improvement_percent = 0 ∧
        evaluate_recommendation (run_evaluation results) =
          some "keep_original") := by
  have hlen : ¬ results.length = 0 := by
    simpa [List.length_eq_zero] using hne
  have hlenpos : (0 : ℚ) < (results.length : ℚ) := by
    exact_mod_cast Nat.pos_of_ne_zero hlen
  set S1 := results.foldr (fun tr acc => promptSum "Original" tr + acc) 0 with hS1
  set S2 := results.foldr (fun tr acc => promptSum "Optimized" tr + acc) 0 with hS2
  set o1 : ℚ := S1 / (results.length : ℚ) * 100 with ho1
  set o2 : ℚ := S2 / (results.length : ℚ) * 100 with ho2
  have hrun : run_evaluation results = .success
      ⟨round2 o1, round2 o2, round2 (o2 - o1),
       round2 (improvementPercent o1 (o2 - o1)), results.length⟩ := by
    simp only [run_evaluation]
    rw [if_neg hlen]
  have hb1 : 0 ≤ S1 := foldr_promptSum_nonneg _ _
  have hb2 : S1 ≤ (results.length : ℚ) :=
    foldr_promptSum_le_length _ _ (fun tr htr => (hwf tr htr).1)
  have hc1 : 0 ≤ S2 := foldr_promptSum_nonneg _ _
  have hc2 : S2 ≤ (results.length : ℚ) :=
    foldr_promptSum_le_length _ _ (fun tr htr => (hwf tr htr).2)
  have ho1b : 0 ≤ o1 ∧ o1 ≤ 100 := by
    constructor
    · positivity
    · rw [ho1, div_mul_eq_mul_div, div_le_iff₀ hlenpos]
      linarith
  have ho2b : 0 ≤ o2 ∧ o2 ≤ 100 := by
    constructor
    · positivity
    · rw [ho2, div_mul_eq_mul_div, div_le_iff₀ hlenpos]
      linarith
  refine ⟨_, hrun, (round2_bounds o1 ho1b.1 ho1b.2).1,
    (round2_bounds o1 ho1b.1 ho1b.2).2, (round2_bounds o2 ho2b.1 ho2b.2).1,
    (round2_bounds o2 ho2b.1 ho2b.2).2, fun hall => ?_⟩
  have z1 : S1 = 0 := foldr_promptSum_all_empty _ _ hall
  have z2 : S2 = 0 := foldr_promptSum_all_empty _ _ hall
  have zo1 : o1 = 0 := by rw [ho1, z1]; simp
  have zo2 : o2 = 0 := by rw [ho2, z2]; simp
  have zip : improvementPercent o1 (o2 - o1) = 0 := by
    rw [zo1, zo2]
    simp [improvementPercent]
  refine ⟨by simp [zo1, round2_zero], by simp [zo2, round2_zero],
    by simp [zo1, zo2, round2_zero], by simp [zip, round2_zero], ?_⟩
  rw [hrun]
  simp only [evaluate_recommendation, zo1, zo2, zip, sub_zero, round2_zero]
  norm_num [ctx_classify_recommendation]

/-- C2 counterexample.  At the concrete all-fail input — one test whose two
prompt results each carry an empty assertion list — the run completes
successfully with both scores 0 and improvement 0, but the recommendation
attached by `evaluate_module` is `keep_original`, not the `review` the
claim names. -/
theorem run_evaluation_all_fail_counterexample :
    run_evaluation [[⟨"Original", []⟩, ⟨"Optimized", []⟩]] =
      .success ⟨0, 0, 0, 0, 1⟩ ∧
    evaluate_recommendation
      (run_evaluation [[⟨"Original", []⟩, ⟨"Optimized", []⟩]]) =
      some "keep_original" ∧
    evaluate_recommendation
      (run_evaluation [[⟨"Original", []⟩, ⟨"Optimized", []⟩]]) ≠
      some "review" := by
  have h : run_evaluation [[⟨"Original", []⟩, ⟨"Optimized", []⟩]] =
      .success ⟨0, 0, 0, 0, 1⟩ := by
    simp [run_evaluation, promptSum, assertScore, improvementPercent, round2]
  refine ⟨h, ?_, ?_⟩
  · rw [h]
    norm_num [evaluate_recommendation, ctx_classify_recommendation]
  · rw [h]
    norm_num [evaluate_recommendation, ctx_classify_recommendation]
    decide

/-- C2 witness: the bounds theorem applied to a concrete two-test outcome
with mixed judge results. -/
theorem run_evaluation_score_bounds_witness :
    ∃ s, run_evaluation
        [[⟨"Original", [true, false, true]⟩, ⟨"Optimized", [true, true, true]⟩],
         [⟨"Original", [true]⟩, ⟨"Optimized", [false]⟩]] = .success s ∧
      0 ≤ s.original_score ∧ s.original_score ≤ 100 ∧
      0 ≤ s.optimized_score ∧ s.optimized_score ≤ 100 := by
  obtain ⟨s, h1, h2, h3, h4, h5, -⟩ := run_evaluation_score_bounds
    [[⟨"Original", [true, false, true]⟩, ⟨"Optimized", [true, true, true]⟩],
     [⟨"Original", [true]⟩, ⟨"Optimized", [false]⟩]]
    (by decide) (by decide)
  exact ⟨s, h1, h2, h3, h4, h5⟩

/-! ## C1: recommendation classification -/

/-- C1 counterexample.  The claim states that with the default thresholds
every improvement value other than those above 10 or below -5 — including
exactly 10 — yields the recommendation label `review`.  The code of
`evaluator.py` lines 459-470 produces the label `neutral` there (and the
word `review` appears nowhere in that classification), so the claim is
false at improvement = 10. -/
theorem classify_recommendation_mid_label_counterexample :
    classify_recommendation 10 = "neutral" ∧
    classify_recommendation 10 ≠ "review" := by
  constructor
  · norm_num [classify_recommendation]
  · norm_num [classify_recommendation]
    decide

/-- C1 (amended).  The recommendation of `evaluator.py` `evaluate_module`
is a pure, total function of improvement with the default thresholds
exclusive at the boundary: improvement > 10 yields `apply`,
improvement < -5 yields `reject`, and every other value — including
exactly 10 and exactly -5 — yields the middle label, which the code names
`neutral` (not `review`); no other label is ever produced. -/
theorem classify_recommendation_cases (x : ℚ) :
    (10 < x → classify_recommendation x = "apply") ∧
    (x < -5 → classify_recommendation x = "reject") ∧
    (-5 ≤ x → x ≤ 10 → classify_recommendation x = "neutral") ∧
    (classify_recommendation x = "apply" ∨
     classify_recommendation x = "reject" ∨
     classify_recommendation x = "neutral") := by
  unfold classify_recommendation
  refine ⟨fun h => ?_, fun h => ?_, fun h1 h2 => ?_, ?_⟩
  · rw [if_pos h]
  · rw [if_neg (by linarith), if_pos h]
  · rw [if_neg (by linarith), if_neg (by linarith)]
  · split_ifs <;> simp

/-- C1 witness: the classification evaluated on each side of both
boundaries. -/
theorem classify_recommendation_cases_witness :
    classify_recommendation 11 = "apply" ∧
    classify_recommendation (-6) = "reject" ∧
    classify_recommendation 10 = "neutral" ∧
    classify_recommendation (-5) = "neutral" :=
  ⟨(classify_recommendation_cases 11).1 (by norm_num),
   (classify_recommendation_cases (-6)).2.1 (by norm_num),
   (classify_recommendation_cases 10).2.2.1 (by norm_num) (by norm_num),
   (classify_recommendation_cases (-5)).2.2.1 (by norm_num) (by norm_num)⟩

/-! ## C3: mark applied -/

theorem latestMatch_eq_none_iff (m tm : String) (rows : List OptRow) :
    latestMatch m tm rows = none ↔ ∀ r ∈ rows, optMatches m tm r = false := by
  induction rows with
  | nil => simp [latestMatch]
  | cons x rs ih =>
    simp only [latestMatch]
    by_cases hx : optMatches m tm x
    · rw [if_pos hx]
      constructor
      · intro h
        exfalso
        cases hrest : latestMatch m tm rs with
        | none => rw [hrest] at h; simp at h
        | some p => rw [hrest] at h; simp at h; split_ifs at h
      · intro h
        exact absurd (h x (by simp)) (by simp [hx])
    · rw [if_neg hx]
      constructor
      · intro h
        have hnone : latestMatch m tm rs = none := by
          cases hr : latestMatch m tm rs with
          | none => rfl
          | some p => rw [hr] at h; simp at h
        intro r hr
        rcases List.mem_cons.mp hr with rfl | hmem
        · simpa using hx
        · exact (ih.mp hnone) r hmem
      · intro h
        have hnone : latestMatch m tm rs = none :=
          ih.mpr (fun r hr => h r (by simp [hr]))
        simp [hnone]

theorem latestMatch_some_spec (m tm : String) (rows : List OptRow)
    (i : ℕ) (r : OptRow) (h : latestMatch m tm rows = some (i, r)) :
    rows[i]? = some r ∧ optMatches m tm r = true ∧
    ∀ x ∈ rows, optMatches m tm x = true → x.time ≤ r.time := by
  induction rows generalizing i r with
  | nil => simp [latestMatch] at h
  | cons y rs ih =>
    simp only [latestMatch] at h
    by_cases hy : optMatches m tm y
    · rw [if_pos hy] at h
      cases hrest : latestMatch m tm rs with
      | none =>
        rw [hrest] at h
        simp only [Option.map_none', Option.some.injEq, Prod.mk.injEq] at h
        obtain ⟨rfl, rfl⟩ := h.symm
        refine ⟨by simp, hy, ?_⟩
        intro x hx hmx
        rcases List.mem_cons.mp hx with rfl | hmem
        · exact le_rfl
        · exact absurd hmx
            (by simp [(latestMatch_eq_none_iff m tm rs).mp hrest x hmem])
      | some p =>
        obtain ⟨j, b⟩ := p
        rw [hrest] at h
        simp only [Option.map_some'] at h
        by_cases ht : b.time > y.time
        · rw [if_pos ht] at h
          simp only [Option.some.injEq, Prod.mk.injEq] at h
          obtain ⟨rfl, rfl⟩ := h.symm
          obtain ⟨hg, hm, hmax⟩ := ih j b hrest
          refine ⟨by simpa using hg, hm, ?_⟩
          intro x hx hmx
          rcases List.mem_cons.mp hx with rfl | hmem
          · exact le_of_lt ht
          · exact hmax x hmem hmx
        · rw [if_neg ht] at h
          simp only [Option.some.injEq, Prod.mk.injEq] at h
          obtain ⟨rfl, rfl⟩ := h.symm
          obtain ⟨hg, hm, hmax⟩ := ih j b hrest
          refine ⟨by simp, hy, ?_⟩
          intro x hx hmx
          rcases List.mem_cons.mp hx with rfl | hmem
          · exact le_rfl
          · exact le_trans (hmax x hmem hmx) (not_lt.mp ht)
    · rw [if_neg hy] at h
      cases hrest : latestMatch m tm rs with
      | none => rw [hrest] at h; simp at h
      | some p =>
        obtain ⟨j, b⟩ := p
        rw [hrest] at h
        simp only [Option.map_some', Option.some.injEq, Prod.mk.injEq] at h
        obtain ⟨rfl, rfl⟩ := h.symm
        obtain ⟨hg, hm, hmax⟩ := ih j b hrest
        refine ⟨by simpa using hg, hm, ?_⟩
        intro x hx hmx
        rcases List.mem_cons.mp hx with rfl | hmem
        · exact absurd hmx (by simpa using hy)
        · exact hmax x hmem hmx

theorem latestMatch_set_applied (m tm : String) (rows : List OptRow)
    (i : ℕ) (r : OptRow) (h : latestMatch m tm rows = some (i, r)) :
    latestMatch m tm (rows.set i { r with is_applied := true }) =
      some (i, { r with is_applied := true }) := by
  induction rows generalizing i r with
  | nil => simp [latestMatch] at h
  | cons y rs ih =>
    simp only [latestMatch] at h
    by_cases hy : optMatches m tm y
    · rw [if_pos hy] at h
      cases hrest : latestMatch m tm rs with
      | none =>
        rw [hrest] at h
        simp only [Option.map_none', Option.some.injEq, Prod.mk.injEq] at h
        obtain ⟨rfl, rfl⟩ := h.symm
        have hv : optMatches m tm { y with is_applied := true } = true := by
          simpa [optMatches] using hy
        simp [latestMatch, hrest, hv]
      | some p =>
        obtain ⟨j, b⟩ := p
        rw [hrest] at h
        simp only [Option.map_some'] at h
        by_cases ht : b.time > y.time
        · rw [if_pos ht] at h
          simp only [Option.some.injEq, Prod.mk.injEq] at h
          obtain ⟨rfl, rfl⟩ := h.symm
          have hrec := ih j b hrest
          simp [latestMatch, hrec, hy, ht]
        · rw [if_neg ht] at h
          simp only [Option.some.injEq, Prod.mk.injEq] at h
          obtain ⟨rfl, rfl⟩ := h.symm
          have hv : optMatches m tm { y with is_applied := true } = true := by
            simpa [optMatches] using hy
          simp [latestMatch, hrest, hv, ht]
    · rw [if_neg hy] at h
      cases hrest : latestMatch m tm rs with
      | none => rw [hrest] at h; simp at h
      | some p =>
        obtain ⟨j, b⟩ := p
        rw [hrest] at h
        simp only [Option.map_some', Option.some.injEq, Prod.mk.injEq] at h
        obtain ⟨rfl, rfl⟩ := h.symm
        have hrec := ih j b hrest
        simp [latestMatch, hrec, hy]

/-- C3 (amended).  `mark_optimization_applied` returns false exactly when no
run matches the `(module_name, target_model)` pair, in which case the store
is unchanged; when it returns true it has set `is_applied` on a single
most-recent matching run (one whose timestamp is maximal among matching
runs).  However, the `UPDATE` does not filter on `is_applied`, so a second
call with no new run in between finds the same row again and returns TRUE —
not false as the claim states — while leaving the store unchanged (the
second call is observationally idempotent). -/
theorem mark_optimization_applied_spec (rows : List OptRow) (m tm : String) :
    ((mark_optimization_applied rows m tm).1 = false ↔
      ∀ r ∈ rows, optMatches m tm r = false) ∧
    ((mark_optimization_applied rows m tm).1 = false →
      (mark_optimization_applied rows m tm).2 = rows) ∧
    ((mark_optimization_applied rows m tm).1 = true →
      ∃ i r, rows[i]? = some r ∧ optMatches m tm r = true ∧
        (∀ x ∈ rows, optMatches m tm x = true → x.time ≤ r.time) ∧
        (mark_optimization_applied rows m tm).2 =
          rows.set i { r with is_applied := true }) ∧
    mark_optimization_applied (mark_optimization_applied rows m tm).2 m tm =
      ((mark_optimization_applied rows m tm).1,
       (mark_optimization_applied rows m tm).2) := by
  cases hlm : latestMatch m tm rows with
  | none =>
    have h1 : mark_optimization_applied rows m tm = (false, rows) := by
      simp [mark_optimization_applied, hlm]
    rw [h1]
    exact ⟨⟨fun _ => (latestMatch_eq_none_iff m tm rows).mp hlm, fun _ => rfl⟩,
      fun _ => rfl, by simp, by simp [mark_optimization_applied, hlm]⟩
  | some p =>
    obtain ⟨i, r⟩ := p
    have h1 : mark_optimization_applied rows m tm =
        (true, rows.set i { r with is_applied := true }) := by
      simp [mark_optimization_applied, hlm]
    rw [h1]
    obtain ⟨hg, hm, hmax⟩ := latestMatch_some_spec m tm rows i r hlm
    refine ⟨⟨fun hfalse => by simp at hfalse, fun hall => ?_⟩, by simp,
      fun _ => ⟨i, r, hg, hm, hmax, rfl⟩, ?_⟩
    · exact absurd (hall r (List.getElem?_mem hg)) (by simp [hm])
    · have h2 := latestMatch_set_applied m tm rows i r hlm
      simp [mark_optimization_applied, h2, List.set_set]

/-- C3 counterexample.  On a store holding one matching run, the first call
marks it applied and returns true; the second call — with no new run
recorded in between — returns TRUE again, where the claim requires false. -/
theorem mark_optimization_applied_counterexample :
    (mark_optimization_applied
      (mark_optimization_applied
        [⟨"guide", "claude", 120, 80, 5, 0, false⟩] "guide" "claude").2
      "guide" "claude").1 = true := by
  decide

/-- C3 witness: the spec theorem applied to a one-row store — the flip
succeeds, and the repeated call changes nothing and reports true; and to
the empty store, where the call reports false. -/
theorem mark_optimization_applied_spec_witness :
    (mark_optimization_applied
        (mark_optimization_applied
          [⟨"guide", "claude", 120, 80, 5, 0, false⟩] "guide" "claude").2
        "guide" "claude" =
      ((mark_optimization_applied
          [⟨"guide", "claude", 120, 80, 5, 0, false⟩] "guide" "claude").1,
       (mark_optimization_applied
          [⟨"guide", "claude", 120, 80, 5, 0, false⟩] "guide" "claude").2)) ∧
    (mark_optimization_applied ([] : List OptRow) "guide" "claude").1 = false :=
  ⟨(mark_optimization_applied_spec
      [⟨"guide", "claude", 120, 80, 5, 0, false⟩] "guide" "claude").2.2.2,
   (mark_optimization_applied_spec [] "guide" "claude").1.mpr (by simp)⟩

/-! ## Helper lemmas for the latest-run selection -/

theorem latestBy_eq_none_iff {α : Type} (t : α → ℤ) (l : List α) :
    latestBy t l = none ↔ l = [] := by
  cases l with
  | nil => simp [latestBy]
  | cons x xs =>
    refine iff_of_false ?_ (by simp)
    simp only [latestBy]
    cases hr : latestBy t xs with
    | none => simp
    | some b =>
      dsimp only
      split_ifs <;> simp

theorem latestBy_mem {α : Type} (t : α → ℤ) :
    ∀ (l : List α) (b : α), latestBy t l = some b → b ∈ l := by
  intro l
  induction l with
  | nil => simp [latestBy]
  | cons x xs ih =>
    intro b h
    simp only [latestBy] at h
    cases hr : latestBy t xs with
    | none =>
      rw [hr] at h
      simp only [Option.some.injEq] at h
      subst h
      simp
    | some c =>
      rw [hr] at h
      dsimp only at h
      split_ifs at h with hc <;> simp only [Option.some.injEq] at h <;> subst h
      · exact List.mem_cons_of_mem _ (ih c hr)
      · simp

theorem latestBy_le {α : Type} (t : α → ℤ) :
    ∀ (l : List α) (b : α), latestBy t l = some b → ∀ x ∈ l, t x ≤ t b := by
  intro l
  induction l with
  | nil => simp [latestBy]
  | cons y xs ih =>
    intro b h x hx
    simp only [latestBy] at h
    cases hr : latestBy t xs with
    | none =>
      rw [hr] at h
      simp only [Option.some.injEq] at h
      subst h
      rcases List.mem_cons.mp hx with rfl | hmem
      · exact le_rfl
      · exact absurd hmem (by simp [(latestBy_eq_none_iff t xs).mp hr])
    | some c =>
      rw [hr] at h
      dsimp only at h
      split_ifs at h with hc <;> simp only [Option.some.injEq] at h <;> subst h
      · rcases List.mem_cons.mp hx with rfl | hmem
        · exact le_of_lt hc
        · exact ih c hr x hmem
      · rcases List.mem_cons.mp hx with rfl | hmem
        · exact le_rfl
        · exact le_trans (ih c hr x hmem) (not_lt.mp hc)

/-! ## C7: cooldown exclusion -/

theorem moduleImproveEntry_module_name (db : CtxDb) (now : ℤ)
    (max_effectiveness : ℚ) (target_model : Option String)
    (frows : List CtxFeedbackRow) (m : String) (e : ImproveEntry)
    (h : moduleImproveEntry db now max_effectiveness target_model frows m =
      some e) : e.module_name = m := by
  simp only [moduleImproveEntry] at h
  split at h
  · split at h
    · simp only [Option.some.injEq] at h
      subst h
      rfl
    · split_ifs at h
      simp only [Option.some.injEq] at h
      subst h
      rfl
  · simp at h

theorem moduleImproveEntry_none_of_recent (db : CtxDb) (now : ℤ)
    (max_effectiveness : ℚ) (target_model : Option String)
    (frows : List CtxFeedbackRow) (m : String)
    (hrecent : ∃ r ∈ db.opt_results, r.module_name = m ∧
      tmMatches target_model r.target_model = true ∧ now - r.time ≤ 30) :
    moduleImproveEntry db now max_effectiveness target_model frows m =
      none := by
  obtain ⟨r, hrmem, hrname, hrtm, hrage⟩ := hrecent
  have hrin : r ∈ db.opt_results.filter
      (fun q => q.module_name = m && tmMatches target_model q.target_model) :=
    List.mem_filter.mpr ⟨hrmem, by simp [hrname, hrtm]⟩
  simp only [moduleImproveEntry]
  split
  · cases hlb : latestBy (fun q => q.time) (db.opt_results.filter
        (fun q => q.module_name = m && tmMatches target_model q.target_model)) with
    | none =>
      exact absurd ((latestBy_eq_none_iff _ _).mp hlb ▸ hrin) (by simp)
    | some r0 =>
      have hmax := latestBy_le _ _ r0 hlb r hrin
      dsimp only
      rw [if_neg (by omega)]
  · rfl

/-- C7.  The prioritization honors the cooldown: whenever some
`optimization_results` row for the module (matching the requested audience,
when one is given) is at most 30 days old — in particular whenever the most
recent one is younger than the 30-day window, which the code hard-codes
rather than taking as a `cooldown_days` parameter — the module appears
nowhere in the list returned by `identify_modules_for_improvement`, however
low its effectiveness and however many feedback entries it has. -/
theorem cooldown_exclusion (db : CtxDb) (now : ℤ) (min_feedback : ℕ)
    (max_effectiveness : ℚ) (target_model : Option String) (m : String)
    (hrecent : ∃ r ∈ db.opt_results, r.module_name = m ∧
      tmMatches target_model r.target_model = true ∧ now - r.time ≤ 30) :
    ∀ entry ∈ identify_modules_for_improvement db now min_feedback
        max_effectiveness target_model, entry.module_name ≠ m := by
  intro entry hentry
  unfold identify_modules_for_improvement at hentry
  rw [List.mem_mergeSort] at hentry
  obtain ⟨m', hm', hf⟩ := List.mem_filterMap.mp hentry
  have hname := moduleImproveEntry_module_name _ _ _ _ _ _ _ hf
  intro hcontra
  rw [hname.symm.trans hcontra] at hf
  rw [moduleImproveEntry_none_of_recent _ _ _ _ _ _ hrecent] at hf
  exact Option.noConfusion hf

/-- Concrete store for the C7 witness: one module with three low scores and
an optimization run five days old. -/
def cooldownDb : CtxDb :=
  { feedback :=
      [⟨"f1", "guide", "claude", 2, none, "user", 90⟩,
       ⟨"f2", "guide", "claude", 2, none, "user", 91⟩,
       ⟨"f3", "guide", "claude", 2, none, "user", 92⟩],
    opt_results :=
      [⟨"o1", "guide", "claude", some 40, some 42, some 2, 95, "success",
        false, none⟩] }

/-- C7 witness: with `now = 100` the single run of `cooldownDb` is 5 days
old, so the module is excluded even though its effectiveness is far below
the threshold and its feedback count meets the minimum. -/
theorem cooldown_exclusion_witness :
    (identify_modules_for_improvement cooldownDb 100 3 70 none).all
      (fun e => e.module_name != "guide") = true := by
  rw [List.all_eq_true]
  intro e he
  have h := cooldown_exclusion cooldownDb 100 3 70 none "guide"
    ⟨⟨"o1", "guide", "claude", some 40, some 42, some 2, 95, "success",
      false, none⟩, by simp [cooldownDb], rfl, rfl, by norm_num⟩ e he
  simpa using h

/-! ## C8: effectiveness aggregation -/

/-- C8 (amended).  For a document with any matching feedback,
`needs_optimization` is true exactly when the feedback count reaches the
hard-coded minimum of 3 AND the normalized effectiveness
`(avg_score - 1) / 9 * 100` is below the hard-coded threshold of 70 AND
additionally every matching optimization run — in particular the most
recent one — is more than 30 days old.  The claim's `needs_attention ↔
score below threshold` (given enough feedback) omits that cooldown
conjunct, which the counterexample shows to matter. -/
theorem calculate_module_effectiveness_needs_iff (db : CtxDb) (now : ℤ)
    (m : String) (tm : Option String)
    (hne : db.feedback.filter
      (fun r => r.module_name = m && tmMatches tm r.target_model) ≠ []) :
    ((calculate_module_effectiveness db now m tm).needs_optimization = true ↔
      (3 ≤ (calculate_module_effectiveness db now m tm).feedback_count ∧
       (∃ e, (calculate_module_effectiveness db now m tm).effectiveness =
          some e ∧ e < 70) ∧
       (∀ r ∈ db.opt_results, r.module_name = m →
          tmMatches tm r.target_model = true → 30 < now - r.time))) := by
  have hre : (db.feedback.filter
      (fun r => r.module_name = m && tmMatches tm r.target_model)).isEmpty
        = false := by
    simpa [List.isEmpty_iff] using hne
  unfold calculate_module_effectiveness
  rw [if_neg (by simp [hre])]
  dsimp only
  cases hlb : latestBy (fun r => r.time) (db.opt_results.filter
      (fun r => r.module_name = m && tmMatches tm r.target_model)) with
  | none =>
    have hempty := (latestBy_eq_none_iff _ _).mp hlb
    simp only [decide_eq_true_eq]
    constructor
    · rintro ⟨heff, hcount⟩
      refine ⟨hcount, ⟨_, rfl, heff⟩, ?_⟩
      intro r hr hn ht
      exfalso
      have hmem : r ∈ db.opt_results.filter
          (fun q => q.module_name = m && tmMatches tm q.target_model) :=
        List.mem_filter.mpr ⟨hr, by simp [hn, ht]⟩
      rw [hempty] at hmem
      exact List.not_mem_nil r hmem
    · rintro ⟨hcount, ⟨e, he, helt⟩, -⟩
      obtain rfl := Option.some.inj he
      exact ⟨helt, hcount⟩
  | some r0 =>
    simp only [decide_eq_true_eq]
    constructor
    · rintro ⟨hage, heff, hcount⟩
      refine ⟨hcount, ⟨_, rfl, heff⟩, ?_⟩
      intro r hr hn ht
      have := latestBy_le _ _ r0 hlb r
        (List.mem_filter.mpr ⟨hr, by simp [hn, ht]⟩)
      omega
    · rintro ⟨hcount, ⟨e, he, helt⟩, hcool⟩
      have hr0mem := latestBy_mem _ _ r0 hlb
      obtain ⟨hr0, hp⟩ := List.mem_filter.mp hr0mem
      simp only [Bool.and_eq_true, decide_eq_true_eq] at hp
      obtain rfl := Option.some.inj he
      exact ⟨hcool r0 hr0 hp.1 hp.2, helt, hcount⟩

/-- Store for the C8 counterexample: three matching low scores and an
optimization run recorded today. -/
def recentOptDb : CtxDb :=
  { feedback :=
      [⟨"f1", "guide", "claude", 2, none, "user", 98⟩,
       ⟨"f2", "guide", "claude", 2, none, "user", 99⟩,
       ⟨"f3", "guide", "claude", 2, none, "user", 100⟩],
    opt_results :=
      [⟨"o1", "guide", "claude", some 40, some 42, some 2, 100, "success",
        false, none⟩] }

/-- C8 counterexample.  The claim reads: with at least `min_feedback_count`
entries, `needs_attention` is true exactly when the normalized average is
below the threshold.  Here the document has 3 entries and effectiveness
100/9 < 70, yet `needs_optimization` is false, because the most recent
optimization run is 0 days old and the code also requires the 30-day
cooldown to have passed. -/
theorem calculate_module_effectiveness_counterexample :
    (calculate_module_effectiveness recentOptDb 100 "guide"
        none).needs_optimization = false ∧
    3 ≤ (calculate_module_effectiveness recentOptDb 100 "guide"
        none).feedback_count ∧
    (∃ e, (calculate_module_effectiveness recentOptDb 100 "guide"
        none).effectiveness = some e ∧ e < 70) := by
  refine ⟨?_, ?_, ⟨100 / 9, ?_, by norm_num⟩⟩
  · norm_num [calculate_module_effectiveness, tmMatches, latestBy,
      List.filter, recentOptDb]
  · norm_num [calculate_module_effectiveness, tmMatches, List.filter,
      recentOptDb]
  · norm_num [calculate_module_effectiveness, tmMatches, latestBy,
      List.filter, recentOptDb]

/-- Store for the C8 witness: the spec's example of five feedback entries
with scores [2, 3, 2, 4, 3] and no optimization history. -/
def exampleFeedbackDb : CtxDb :=
  { feedback :=
      [⟨"f1", "guide", "claude", 2, none, "user", 90⟩,
       ⟨"f2", "guide", "claude", 3, none, "user", 91⟩,
       ⟨"f3", "guide", "claude", 2, none, "user", 92⟩,
       ⟨"f4", "guide", "claude", 4, none, "user", 93⟩,
       ⟨"f5", "guide", "claude", 3, none, "user", 94⟩],
    opt_results := [] }

/-- C8 witness: on the spec's example — average 2.8, normalized
effectiveness 20 — with no prior optimization run, the amended biconditional
yields `needs_optimization = true`. -/
theorem calculate_module_effectiveness_needs_iff_witness :
    (calculate_module_effectiveness exampleFeedbackDb 100 "guide"
        none).needs_optimization = true := by
  refine (calculate_module_effectiveness_needs_iff exampleFeedbackDb 100
    "guide" none (by decide)).mpr
    ⟨?_, ⟨20, ?_, by norm_num⟩, by simp [exampleFeedbackDb]⟩
  · norm_num [calculate_module_effectiveness, tmMatches, List.filter,
      exampleFeedbackDb]
  · norm_num [calculate_module_effectiveness, tmMatches, latestBy,
      List.filter, exampleFeedbackDb]

/-! ## C9: write operations propagate storage errors -/

/-- C9.  The write operations fail only when the storage layer fails, and
the failure is surfaced, never swallowed: for `record_feedback`
(`scripts/context/feedback.py`) the result dict has `success = False`
carrying the error text exactly when the insert raised, and on success it
carries the id of the appended row (the table grows by exactly that row);
for `add_feedback` (`scripts/context/context_feedback.py`), on valid
arguments — non-empty module and model, score within 1..10, the
programmer-error guard of the spec — the behaviour is the same, with the
generated UUID as the returned id. -/
theorem record_write_propagation
    (ioError : Option String) (now : ℤ) (st : List FbRow)
    (cst : List CtxFeedbackRow) (fid : String) (mn ft tmdl source : String)
    (eff : Option ℤ) (txt uid tmo cmt : Option String) (score : ℤ)
    (hmn : mn ≠ "") (htm : tmdl ≠ "")
    (hscore : 1 ≤ score ∧ score ≤ 10) :
    ((record_feedback ioError now st mn ft eff txt uid tmo).1.success = true ↔
      ioError = none) ∧
    (∀ e, ioError = some e →
      (record_feedback ioError now st mn ft eff txt uid tmo).1.error =
        some ("Error recording feedback: " ++ e) ∧
      (record_feedback ioError now st mn ft eff txt uid tmo).2 = st) ∧
    (ioError = none →
      (record_feedback ioError now st mn ft eff txt uid tmo).1.feedback_id =
        some (st.length + 1) ∧
      (record_feedback ioError now st mn ft eff txt uid tmo).2 =
        st ++ [⟨st.length + 1, mn, now, uid, ft, txt, eff, tmo⟩]) ∧
    ((add_feedback ioError fid now cst mn tmdl score cmt source).1.success
        = true ↔ ioError = none) ∧
    (∀ e, ioError = some e →
      (add_feedback ioError fid now cst mn tmdl score cmt source).1.error =
        some e ∧
      (add_feedback ioError fid now cst mn tmdl score cmt source).2 = cst) ∧
    (ioError = none →
      (add_feedback ioError fid now cst mn tmdl score cmt source).1.id =
        some fid ∧
      (add_feedback ioError fid now cst mn tmdl score cmt source).2 =
        cst ++ [⟨fid, mn, tmdl, score, cmt, source, now⟩]) := by
  have hv1 : ¬(mn = "" ∨ tmdl = "") := by tauto
  have hv2 : ¬(score < 1 ∨ score > 10) := by omega
  cases ioError with
  | none => simp [record_feedback, add_feedback, hv1, hv2]
  | some e => simp [record_feedback, add_feedback, hv1, hv2]

/-- C9 witness: a successful insert returns the id of the appended row, and
a storage failure leaves the table unchanged while surfacing the error. -/
theorem record_write_propagation_witness :
    (record_feedback none 5 [] "guide" "effective" (some 7) none none
        none).1.feedback_id = some 1 ∧
    (add_feedback (some "disk I/O error") "id-1" 5 [] "guide" "claude" 7
        none "user").2 = [] :=
  ⟨((record_write_propagation none 5 [] [] "id-1" "guide" "effective"
      "claude" "user" (some 7) none none none none 7 (by decide) (by decide)
      (by norm_num)).2.2.1 rfl).1,
   ((record_write_propagation (some "disk I/O error") 5 [] [] "id-1" "guide"
      "effective" "claude" "user" (some 7) none none none none 7 (by decide)
      (by decide) (by norm_num)).2.2.2.2.1 "disk I/O error" rfl).2⟩

/-! ## C10: batch feedback insertion is atomic -/

theorem batchInsertGo_ok (entries : List FeedbackEntry) :
    ∀ (st : List FeedbackRow) (ids : List ℕ),
      (∀ e ∈ entries, entryValid e = true) →
      ∃ newRows : List FeedbackRow,
        batchInsertGo st ids entries =
          .ok (ids.reverse ++ List.range' (st.length + 1) entries.length,
            st ++ newRows) ∧
        newRows.length = entries.length := by
  induction entries with
  | nil => exact fun st ids _ => ⟨[], by simp [batchInsertGo], rfl⟩
  | cons e es ih =>
    intro st ids hval
    have he := hval e (by simp)
    simp only [entryValid, Bool.and_eq_true, Option.isSome_iff_exists] at he
    obtain ⟨⟨⟨mn, hmn⟩, mu, hmu⟩, ft, hft⟩ := he
    obtain ⟨newRows, hgo, hlen⟩ :=
      ih (st ++ [⟨st.length + 1, mn, mu, ft, e.feedback_detail, e.session_id⟩])
        ((st.length + 1) :: ids) (fun q hq => hval q (by simp [hq]))
    refine ⟨⟨st.length + 1, mn, mu, ft, e.feedback_detail, e.session_id⟩ ::
      newRows, ?_, by simpa using hlen⟩
    simp only [batchInsertGo, hmn, hmu, hft]
    rw [hgo]
    simp [List.range'_succ, List.append_assoc]

theorem batchInsertGo_error (entries : List FeedbackEntry) :
    ∀ (st : List FeedbackRow) (ids : List ℕ),
      (∃ e ∈ entries, entryValid e = false) →
      ∃ err, batchInsertGo st ids entries = .error err := by
  induction entries with
  | nil => simp
  | cons e es ih =>
    intro st ids hinv
    by_cases he : entryValid e = true
    · simp only [entryValid, Bool.and_eq_true, Option.isSome_iff_exists] at he
      obtain ⟨⟨⟨mn, hmn⟩, mu, hmu⟩, ft, hft⟩ := he
      have htail : ∃ q ∈ es, entryValid q = false := by
        obtain ⟨q, hq, hqv⟩ := hinv
        rcases List.mem_cons.mp hq with rfl | hmem
        · rw [entryValid] at hqv
          simp [hmn, hmu, hft] at hqv
        · exact ⟨q, hmem, hqv⟩
      obtain ⟨err, herr⟩ := ih _ _ htail
      exact ⟨err, by simp only [batchInsertGo, hmn, hmu, hft]; exact herr⟩
    · refine ⟨"NOT NULL constraint failed: module_feedback", ?_⟩
      simp only [batchInsertGo]
      cases h1 : e.module_name <;> cases h2 : e.model_used <;>
        cases h3 : e.feedback_type <;> simp_all [entryValid]

/-- C10.  Batch feedback insertion is atomic: the call succeeds exactly
when every entry carries the three `NOT NULL` columns (the failure mode the
schema defines); on any failing insert the transaction is rolled back — the
table is exactly its pre-call state — and the error is re-raised; on
success it returns one freshly assigned id per input entry, in input order
(the consecutive rowids starting after the existing rows), and appends
exactly one row per entry after the existing rows. -/
theorem batch_add_feedback_atomic (st : List FeedbackRow)
    (entries : List FeedbackEntry) :
    ((∃ ids, (batch_add_feedback st entries).1 = .ok ids) ↔
      ∀ e ∈ entries, entryValid e = true) ∧
    (∀ err, (batch_add_feedback st entries).1 = .error err →
      (batch_add_feedback st entries).2 = st) ∧
    (∀ ids, (batch_add_feedback st entries).1 = .ok ids →
      ids = List.range' (st.length + 1) entries.length ∧
      (batch_add_feedback st entries).2.length =
        st.length + entries.length ∧
      st <+: (batch_add_feedback st entries).2) := by
  by_cases hval : ∀ e ∈ entries, entryValid e = true
  · obtain ⟨newRows, hgo, hlen⟩ := batchInsertGo_ok entries st [] hval
    have hb : batch_add_feedback st entries =
        (.ok (List.range' (st.length + 1) entries.length), st ++ newRows) := by
      simp only [batch_add_feedback, hgo]
      simp
    rw [hb]
    refine ⟨⟨fun _ => hval, fun _ => ⟨_, rfl⟩⟩, by simp, ?_⟩
    intro ids hids
    simp only [Except.ok.injEq] at hids
    subst hids
    exact ⟨rfl, by simp [hlen], List.prefix_append st newRows⟩
  · have hinv : ∃ e ∈ entries, entryValid e = false := by
      push_neg at hval
      obtain ⟨e, he, hev⟩ := hval
      exact ⟨e, he, by simpa using hev⟩
    obtain ⟨err, hgo⟩ := batchInsertGo_error entries st [] hinv
    have hb : batch_add_feedback st entries = (.error err, st) := by
      simp [batch_add_feedback, hgo]
    rw [hb]
    refine ⟨⟨?_, fun h => absurd h hval⟩, fun _ _ => rfl, by simp⟩
    rintro ⟨ids, hids⟩
    exact Except.noConfusion hids

/-- C10 witness: a two-entry batch succeeds with ids [1, 2]; a batch whose
entry misses a `NOT NULL` column rolls back to the empty table. -/
theorem batch_add_feedback_atomic_witness :
    (∃ ids, (batch_add_feedback []
      [⟨some "guide", some "claude", some "positive", none, none⟩,
       ⟨some "guide", some "gpt", some "negative", some "too long",
        none⟩]).1 = .ok ids) ∧
    (batch_add_feedback []
      [⟨none, some "claude", some "positive", none, none⟩]).2 = [] :=
  ⟨(batch_add_feedback_atomic []
      [⟨some "guide", some "claude", some "positive", none, none⟩,
       ⟨some "guide", some "gpt", some "negative", some "too long",
        none⟩]).1.mpr (by decide),
   (batch_add_feedback_atomic []
      [⟨none, some "claude", some "positive", none, none⟩]).2.1
     "NOT NULL constraint failed: module_feedback" (by rfl)⟩

/-! ## C4: key-term extraction -/

theorem keyTermsLoop_spec (mx : ℕ) (ts : List String) : ∀ acc : List String,
    ∃ suffix, keyTermsLoop mx ts acc = acc.reverse ++ suffix ∧
      suffix.Sublist ts ∧ suffix.Nodup ∧
      ∀ t ∈ suffix, 3 < t.length ∧ t ∉ acc := by
  induction ts with
  | nil => exact fun acc => ⟨[], by simp [keyTermsLoop], by simp, by simp, by simp⟩
  | cons t ts ih =>
    intro acc
    simp only [keyTermsLoop]
    split
    case isTrue hb =>
      simp only [Bool.and_eq_true, decide_eq_true_eq, Bool.not_eq_eq_eq_not,
        Bool.not_true] at hb
      have hlen : 3 < t.length := hb.1.1
      have hacc : t ∉ acc := by simpa using hb.1.2
      split
      case isTrue hmx =>
        refine ⟨[t], by simp, by simp, by simp, ?_⟩
        intro x hx
        rw [List.mem_singleton] at hx
        subst hx
        exact ⟨hlen, hacc⟩
      case isFalse hmx =>
        obtain ⟨suffix, heq, hsub, hnodup, hprop⟩ := ih (t :: acc)
        refine ⟨t :: suffix, by simpa using heq, hsub.cons₂ t, ?_, ?_⟩
        · exact List.nodup_cons.mpr
            ⟨fun hts => ((hprop t hts).2 (by simp)), hnodup⟩
        · intro x hx
          rcases List.mem_cons.mp hx with rfl | hmem
          · exact ⟨hlen, hacc⟩
          · exact ⟨(hprop x hmem).1,
              fun hxa => (hprop x hmem).2 (by simp [hxa])⟩
    case isFalse hb =>
      obtain ⟨suffix, heq, hsub, hnodup, hprop⟩ := ih acc
      exact ⟨suffix, heq, hsub.cons t, hnodup, hprop⟩

/-- C4 (amended).  For the `evaluator.py` extractor the claim holds in
full: `_extract_key_terms` is a pure function of the content (so repeated
calls agree), its output lists the matched terms in order of first
appearance (it is a sublist of the match sequence and duplicate-free), and
every kept term is at least 4 characters long.  In the duplicated
`context_evaluator.py` extractor, however, duplicate removal goes through
`list(set(...))`, whose iteration order is unspecified across processes,
and backtick-quoted terms are appended without the length filter — see the
counterexample. -/
theorem extract_key_terms_ordered_nodup (content : String) (mx : ℕ) :
    (extract_key_terms content mx).Sublist (termMatches content) ∧
    (extract_key_terms content mx).Nodup ∧
    ∀ t ∈ extract_key_terms content mx, 4 ≤ t.length := by
  obtain ⟨suffix, heq, hsub, hnodup, hprop⟩ :=
    keyTermsLoop_spec mx (termMatches content) []
  unfold extract_key_terms
  rw [heq]
  simp only [List.reverse_nil, List.nil_append]
  exact ⟨hsub, hnodup, fun t ht => (hprop t ht).1⟩

/-- C4 counterexample.  The claim says key-term extraction discards terms
shorter than 4 characters; the `context_evaluator.py` extractor applies
that filter to code-block and capitalized terms but not to backtick-quoted
ones, so on the content made of a backtick-quoted two-character term the
returned list keeps it. -/
theorem ctx_extract_key_terms_short_term_counterexample :
    ctx_extract_key_terms "`ab`" = ["ab"] ∧ ¬ 4 ≤ ("ab" : String).length := by
  constructor
  · decide
  · decide

/-- C4 witness: the ordered/nodup/length theorem applied at a concrete
content whose single match is a multi-word capitalized phrase. -/
theorem extract_key_terms_ordered_nodup_witness :
    (extract_key_terms "For The Widget System" 10).Nodup ∧
    4 ≤ ("For The Widget System" : String).length :=
  ⟨(extract_key_terms_ordered_nodup "For The Widget System" 10).2.1,
   (extract_key_terms_ordered_nodup "For The Widget System" 10).2.2
     "For The Widget System" (by decide)⟩

/-! ## C5: test-case generation is total and non-empty -/

/-- C5.  For every non-empty content string and every requested number of
test cases of at least one, `generate_test_cases` returns a non-empty list
(a total Lean function, it can raise nothing): when no context block is
found it falls back to the three generic prompts, and when blocks exist the
filler loop pads the prompts up to `num_tests`; the `except` fallback of
the Python, returned on any internal extraction error, is non-empty as
well. -/
theorem generate_test_cases_nonempty (content : String) (n : ℕ)
    (hn : 1 ≤ n) (_hc : content ≠ "") :
    generate_test_cases content n ≠ [] ∧ ctx_fallback_test_cases ≠ [] := by
  refine ⟨?_, by simp [ctx_fallback_test_cases]⟩
  unfold generate_test_cases
  intro hempty
  rw [List.map_eq_nil_iff, List.take_eq_nil_iff] at hempty
  rcases hempty with hn0 | hprompts
  · omega
  · revert hprompts
    unfold ctxPrompts
    split
    · simp [genericPrompts]
    · intro hprompts
      have hlen := congrArg List.length hprompts
      simp only [List.length_append, List.length_replicate, List.length_nil] at hlen
      omega

/-- C5 witness: a non-empty content with no context block and the default
three test cases. -/
theorem generate_test_cases_nonempty_witness :
    generate_test_cases "plain text" 3 ≠ [] ∧ ctx_fallback_test_cases ≠ [] :=
  generate_test_cases_nonempty "plain text" 3 (by norm_num) (by decide)

/-! ## C6: improvement percent -/

/-- C6.  The `improvement_percent` computation of `run_evaluation`
(`context_evaluator.py` lines 289-291) never divides by zero: for any pair
of scores it equals `improvement / original_score * 100` when the original
score is positive, and 0 when the original score is 0; over the
non-negative scores the code produces, the guard `original_score > 0` is
exactly the complement of `original_score = 0`, and the embedding is a
total function, so no exception can arise. -/
theorem improvementPercent_no_div_by_zero (original_score improvement : ℚ)
    (h : 0 ≤ original_score) :
    (0 < original_score →
      improvementPercent original_score improvement =
        improvement / original_score * 100) ∧
    (original_score = 0 → improvementPercent original_score improvement = 0) ∧
    improvementPercent original_score improvement =
      if original_score = 0 then 0 else improvement / original_score * 100 := by
  unfold improvementPercent
  refine ⟨fun hpos => if_pos hpos, fun hz => ?_, ?_⟩
  · rw [if_neg (by rw [hz]; exact lt_irrefl 0)]
  · rcases eq_or_lt_of_le h with hz | hpos
    · rw [if_neg (by rw [← hz]; exact lt_irrefl 0), if_pos hz.symm]
    · rw [if_pos hpos, if_neg (by positivity)]

/-- C6 witness: a zero and a positive original score. -/
theorem improvementPercent_no_div_by_zero_witness :
    improvementPercent 0 5 = 0 ∧ improvementPercent 50 10 = 20 := by
  constructor
  · exact (improvementPercent_no_div_by_zero 0 5 le_rfl).2.1 rfl
  · rw [(improvementPercent_no_div_by_zero 50 10 (by norm_num)).1 (by norm_num)]
    norm_num

end Superstack
